import Mathlib

/-!
Verification of the AGI Prompt System core (orchestrator loop, cache manager,
task manager) against its natural-language specification.

The development is a shallow embedding of the Python sources:
  * `src/cache.py`   — `CacheManager` over a Redis backing store,
  * `src/tasks.py`   — `TaskManager.get_task_status`,
  * `src/prompt_orchestrator.py` — `PromptOrchestrator.generate_prompt`.

Modelling conventions:
  * The Redis backing store is an association list from (already namespaced)
    keys to entries; an entry holds the stored bytes and the remaining TTL
    (`none` for a key written by plain SET, i.e. no expiry).  `redis.ttl`
    semantics (-2 absent, -1 no expiry) are reproduced in `get_ttl`.
  * Stored bytes either deserialize to a value (`Stored.good v`) or are
    malformed (`Stored.corrupt`); `json.loads` failure makes `_deserialize`
    return Python `None`, which the embedding renders as `Option.none`.
    Caller-facing Python values of record type `β` are therefore `Option β`,
    with `none` playing the role of Python `None`.
  * Exceptions of collaborator calls are `Except String`; the orchestrator
    run returns its outcome together with the cache state and the number of
    collaborator invocations performed, so that propagation, cache writes
    and call counts can all be stated.
  * Backing-store failures (`RedisError`) are not modelled: every claim
    below concerns the behaviour of the cache on a responsive store (the
    error branches only add `errors` counts and return defaults).
  * Python truthiness of a cached record (`if cached_result:`) is `isSome`:
    a cached Run-result / task dict is a non-empty dict, hence truthy, while
    Python `None` (a miss or a corrupt entry) is falsy.
-/

/-- Association-list lookup on string keys (models a Redis GET). -/
def assocFind {α : Type} (k : String) : List (String × α) → Option α
  | [] => none
  | (k₁, v) :: rest => if k₁ = k then some v else assocFind k rest

/-- Association-list overwrite on string keys (models a Redis SET/SETEX,
which replaces any previous value for the key). -/
def assocInsert {α : Type} (k : String) (v : α) (l : List (String × α)) :
    List (String × α) :=
  (k, v) :: l.filter (fun kv => kv.1 ≠ k)

/-- Association-list removal (models a Redis DEL of one key). -/
def assocErase {α : Type} (k : String) (l : List (String × α)) :
    List (String × α) :=
  l.filter (fun kv => kv.1 ≠ k)

/-- Bytes stored in Redis, as seen through `json.dumps`/`json.loads`:
either they deserialize to a value, or they are malformed. -/
inductive Stored (β : Type) where
  | good (v : β)
  | corrupt
deriving Repr, DecidableEq

/-- One Redis entry: the stored bytes plus the remaining TTL
(`none` = written without expiry). -/
structure RedisEntry (β : Type) where
  bytes : Stored β
  ttl : Option Int
deriving Repr, DecidableEq

/-- The five process-local counters of `CacheManager.stats`. -/
structure CacheStats where
  hits : Nat
  misses : Nat
  sets : Nat
  deletes : Nat
  errors : Nat
deriving Repr, DecidableEq

/-- The `CacheManager` of `src/cache.py`: a namespaced view of a Redis store
plus the statistics counters.  `ns` is the fixed key namespace
(`"agi_prompt:"` by default). -/
structure CacheManager (β : Type) where
  ns : String
  store : List (String × RedisEntry β)
  stats : CacheStats
deriving Repr, DecidableEq

/-- Sum of the five counters (used to state that an operation incremented
at least one of them). -/
def CacheStats.total (s : CacheStats) : Nat :=
  s.hits + s.misses + s.sets + s.deletes + s.errors

namespace CacheManager

variable {β : Type}

/-- Python `_make_key`: prepend the namespace. -/
def mkKey (cm : CacheManager β) (key : String) : String :=
  cm.ns ++ key

/-- Python `_deserialize`: malformed bytes yield Python `None` (logged, not
raised). -/
def deserialize (b : Stored β) : Option β :=
  match b with
  | .good v => some v
  | .corrupt => none

/-- Python `CacheManager.get`: on a present key, `hits` is bumped and the
deserialized value returned (Python `None` when the bytes are corrupt);
on an absent key, `misses` is bumped and the caller-supplied default
returned.  Total — the Python code never lets an exception escape. -/
def get (cm : CacheManager β) (key : String) (default : Option β) :
    Option β × CacheManager β :=
  match assocFind (cm.mkKey key) cm.store with
  | some e =>
      (deserialize e.bytes,
       { cm with stats := { cm.stats with hits := cm.stats.hits + 1 } })
  | none =>
      (default,
       { cm with stats := { cm.stats with misses := cm.stats.misses + 1 } })

/-- Python `CacheManager.set`: serialize and store; a positive TTL uses SETEX,
otherwise a plain SET with no expiry.  `ttl = none` falls back to
`settings.CACHE_TTL = 300`.  Bumps `sets` and returns `true`. -/
def set (cm : CacheManager β) (key : String) (value : β) (ttl : Option Int) :
    Bool × CacheManager β :=
  let t : Int := match ttl with | some t => t | none => 300
  let entry : RedisEntry β :=
    if t > 0 then { bytes := .good value, ttl := some t }
    else { bytes := .good value, ttl := none }
  (true,
   { cm with
       store := assocInsert (cm.mkKey key) entry cm.store,
       stats := { cm.stats with sets := cm.stats.sets + 1 } })

/-- Python `CacheManager.delete`: remove the key, bump `deletes`, report whether
a key was removed. -/
def delete (cm : CacheManager β) (key : String) : Bool × CacheManager β :=
  let present := (assocFind (cm.mkKey key) cm.store).isSome
  (present,
   { cm with
       store := assocErase (cm.mkKey key) cm.store,
       stats := { cm.stats with deletes := cm.stats.deletes + 1 } })

/-- The `redis.ttl` semantics: -2 for a missing key, -1 for a key with no
expiry, else the remaining TTL. -/
def redisTtl (cm : CacheManager β) (k : String) : Int :=
  match assocFind k cm.store with
  | none => -2
  | some e => match e.ttl with | none => -1 | some t => t

/-- Python `CacheManager.get_ttl`: returns the remaining TTL when nonnegative and
`none` otherwise; on success it touches no counter. -/
def get_ttl (cm : CacheManager β) (key : String) :
    Option Int × CacheManager β :=
  let t := cm.redisTtl (cm.mkKey key)
  (if t ≥ 0 then some t else none, cm)

/-- Python `CacheManager.exists` (named `existsKey` here since `exists` is a Lean
keyword): membership test; on success it touches no counter. -/
def existsKey (cm : CacheManager β) (key : String) : Bool × CacheManager β :=
  ((assocFind (cm.mkKey key) cm.store).isSome, cm)

/-- Redis KEYS glob matching (`*`, `?`, literal characters). -/
def globMatch : List Char → List Char → Bool
  | [], [] => true
  | [], _ :: _ => false
  | '*' :: ps, [] => globMatch ps []
  | '*' :: ps, c :: cs => globMatch ps (c :: cs) || globMatch ('*' :: ps) cs
  | '?' :: _, [] => false
  | '?' :: ps, _ :: cs => globMatch ps cs
  | _ :: _, [] => false
  | p :: ps, c :: cs => (p = c) && globMatch ps cs
termination_by ps cs => (ps.length, cs.length)

/-- Python `CacheManager.clear`: delete every key matching the namespaced glob
pattern; when no key matches, return 0 without touching the store or the
counters; otherwise bump `deletes` by the number of keys removed. -/
def clear (cm : CacheManager β) (pattern : String) : Nat × CacheManager β :=
  let pat := (cm.mkKey pattern).toList
  let keys := (cm.store.filter (fun kv => globMatch pat kv.1.toList)).map
    (fun kv => kv.1)
  if keys.isEmpty then (0, cm)
  else
    let deleted := keys.length
    (deleted,
     { cm with
         store := cm.store.filter (fun kv => ¬ globMatch pat kv.1.toList),
         stats := { cm.stats with deletes := cm.stats.deletes + deleted } })

end CacheManager

/-!  ### Task manager (`src/tasks.py`)  -/

/-- The view of a Celery `AsyncResult` that `get_task_status` consumes:
state string, readiness flags, and the stringified result / exception
plus traceback.  It is the external queue's result store, taken as an
oracle from task id to this record. -/
structure CeleryResult where
  state : String
  ready : Bool
  successful : Bool
  failed : Bool
  result : String
  traceback : String
deriving Repr, DecidableEq

/-- The status dict built by `TaskManager.get_task_status`: always carries
`task_id/status/ready/successful/failed`; `result` is present exactly when
the task is ready and successful, `error`/`traceback` exactly when it is
ready and unsuccessful. -/
structure TaskRecord where
  task_id : String
  status : String
  ready : Bool
  successful : Bool
  failed : Bool
  result : Option String
  error : Option String
  traceback : Option String
deriving Repr, DecidableEq

namespace TaskManager

/-- Python `TaskManager.get_task_status`: consult the cache under
`"task:" + task_id` first; on a hit return the cached record; on a miss
build the response from the queue's result store and, exactly when the
task is ready (terminal), cache it with a 300-second TTL before
returning. -/
def get_task_status (cm : CacheManager TaskRecord)
    (backend : String → CeleryResult) (task_id : String) :
    TaskRecord × CacheManager TaskRecord :=
  let key := "task:" ++ task_id
  let lookup := cm.get key none
  match lookup.1 with
  | some r => (r, lookup.2)
  | none =>
      let cm₁ := lookup.2
      let res := backend task_id
      let base : TaskRecord :=
        { task_id := task_id, status := res.state, ready := res.ready,
          successful := res.successful, failed := res.failed,
          result := none, error := none, traceback := none }
      let response :=
        if res.ready then
          if res.successful then { base with result := some res.result }
          else { base with error := some res.result,
                           traceback := some res.traceback }
        else base
      let cm₂ := if res.ready then (cm₁.set key response (some 300)).2 else cm₁
      (response, cm₂)

end TaskManager

/-!  ### Orchestrator (`src/prompt_orchestrator.py`)  -/

/-- An evaluation returned by the Evaluator collaborator: a score (clamped
by the evaluator into 0..1000) plus the rest of the feedback payload. -/
structure Evaluation where
  score : Nat
  feedback : String
deriving Repr, DecidableEq

/-- One entry of `current_run_results`: the dict
`{iteration, prompt, score, feedback, timestamp}` (the wall-clock
timestamp string is not modelled). -/
structure Iteration where
  iteration : Nat
  prompt : String
  score : Nat
  feedback : Evaluation
deriving Repr, DecidableEq

/-- The final result dict of `generate_prompt` (minus the wall-clock
`completed_at` string). -/
structure RunResult where
  task_id : String
  final_prompt : String
  final_score : Nat
  iterations : List Iteration
  requirements : String
deriving Repr, DecidableEq

/-- The two collaborators of the orchestrator, as fallible oracles:
`PromptArchitect.generate_initial_prompt`, `PromptEvaluator.evaluate_prompt`
and `PromptArchitect.refine_prompt`.  An `Except.error` models the
collaborator call raising. -/
structure Collaborators where
  generate_initial_prompt : String → Except String String
  evaluate_prompt : String → Except String Evaluation
  refine_prompt : String → Evaluation → String → Except String String
deriving Inhabited

/-- The mutable locals of the `while` loop in `generate_prompt`, plus the
number of evaluator and refine invocations performed (instrumentation for
the call-count claims; it does not alter control flow).  `lastScore` is
the Python local `score`, unbound (`none`) before the first evaluation. -/
structure LoopState where
  prompt : String
  lastScore : Option Nat
  results : List Iteration
  evalCalls : Nat
  refineCalls : Nat
deriving Repr, DecidableEq

/-- The iteration loop of `generate_prompt`, recursion on the remaining
loop budget (`remaining = max_iterations - iteration`, so the `while`
guard `iteration < max_iterations` is `remaining > 0`).  Returns the final
loop state together with the raised exception, if a collaborator call
raised (`some e` propagates unchanged — the loop has no handler). -/
def genLoop (C : Collaborators) (minScore maxIter : Nat)
    (requirements : String) :
    Nat → Nat → LoopState → LoopState × Option String
  | 0, _, s => (s, none)
  | remaining + 1, iteration, s =>
      let iter := iteration + 1
      match C.evaluate_prompt s.prompt with
      | .error e => ({ s with evalCalls := s.evalCalls + 1 }, some e)
      | .ok evaluation =>
          let score := evaluation.score
          let s₁ : LoopState :=
            { s with
                lastScore := some score,
                results := s.results ++
                  [{ iteration := iter, prompt := s.prompt, score := score,
                     feedback := evaluation }],
                evalCalls := s.evalCalls + 1 }
          if minScore ≤ score then (s₁, none)
          else if maxIter ≤ iter then (s₁, none)
          else
            match C.refine_prompt s.prompt evaluation requirements with
            | .error e =>
                ({ s₁ with refineCalls := s₁.refineCalls + 1 }, some e)
            | .ok newPrompt =>
                genLoop C minScore maxIter requirements remaining iter
                  { s₁ with prompt := newPrompt,
                            refineCalls := s₁.refineCalls + 1 }

/-- The run-level cache key `f"prompt_gen:{hash(requirements)}"`; the
process-stable `hash` is modelled by the identity (any injective stable
hash gives the same observable behaviour). -/
def prompt_gen_key (requirements : String) : String :=
  "prompt_gen:" ++ requirements

/-- Everything observable about one `generate_prompt` call: the returned
result or the propagated exception, the run-level cache afterwards, and
how many times each collaborator entry point was invoked. -/
structure RunOutput where
  outcome : Except String RunResult
  cache : CacheManager RunResult
  evalCalls : Nat
  genInitialCalls : Nat
  refineCalls : Nat
deriving Repr

/-- The Python `max_iterations = max_iterations or config.MAX_ITERATIONS`:
`or` substitutes the config value both for `None` and for a falsy `0`. -/
def effectiveMaxIter (max_iterations : Option Nat) (cfg : Nat) : Nat :=
  match max_iterations with
  | some n => if n = 0 then cfg else n
  | none => cfg

/-- The body of `generate_prompt` after a run-cache miss: generate the
initial artifact, run the loop, and on normal completion build the final
result dict from the loop-local `score` (a `NameError` if the loop body
never ran) and write it to the run cache with TTL 86400.  A raised
collaborator exception propagates and skips the cache write. -/
def runFromScratch (C : Collaborators) (minScore maxIter : Nat)
    (requirements taskId : String) (cache : CacheManager RunResult) :
    RunOutput :=
  match C.generate_initial_prompt requirements with
  | .error e =>
      { outcome := .error e, cache := cache,
        evalCalls := 0, genInitialCalls := 1, refineCalls := 0 }
  | .ok p₀ =>
      let run := genLoop C minScore maxIter requirements maxIter 0
        { prompt := p₀, lastScore := none, results := [],
          evalCalls := 0, refineCalls := 0 }
      match run.2 with
      | some e =>
          { outcome := .error e, cache := cache,
            evalCalls := run.1.evalCalls, genInitialCalls := 1,
            refineCalls := run.1.refineCalls }
      | none =>
          match run.1.lastScore with
          | none =>
              { outcome := .error "NameError: score", cache := cache,
                evalCalls := run.1.evalCalls, genInitialCalls := 1,
                refineCalls := run.1.refineCalls }
          | some score =>
              let finalResult : RunResult :=
                { task_id := taskId, final_prompt := run.1.prompt,
                  final_score := score, iterations := run.1.results,
                  requirements := requirements }
              { outcome := .ok finalResult,
                cache := (cache.set (prompt_gen_key requirements)
                  finalResult (some 86400)).2,
                evalCalls := run.1.evalCalls, genInitialCalls := 1,
                refineCalls := run.1.refineCalls }

/-- Python `PromptOrchestrator.generate_prompt`.  `cfgMaxIterations` is
`config.MAX_ITERATIONS`.  A run-cache hit (a truthy cached dict)
short-circuits everything and returns the cached Run result with zero
collaborator invocations; otherwise the full run executes. -/
def generate_prompt (C : Collaborators) (minScore cfgMaxIterations : Nat)
    (requirements : String) (max_iterations : Option Nat) (taskId : String)
    (cache : CacheManager RunResult) : RunOutput :=
  let maxIter := effectiveMaxIter max_iterations cfgMaxIterations
  let hit := cache.get (prompt_gen_key requirements) none
  match hit.1 with
  | some r =>
      { outcome := .ok r, cache := hit.2,
        evalCalls := 0, genInitialCalls := 0, refineCalls := 0 }
  | none => runFromScratch C minScore maxIter requirements taskId hit.2
/-!  ### Loop lemmas  -/

/-- Each loop pass performs one evaluation, so the loop adds at most
`remaining` evaluator calls. -/
theorem genLoop_evalCalls_le (C : Collaborators) (mS mI : Nat) (req : String) :
    ∀ (rem it : Nat) (s : LoopState),
      ((genLoop C mS mI req rem it s).1).evalCalls ≤ s.evalCalls + rem := by
  intro rem
  induction rem with
  | zero => intro it s; simp [genLoop]
  | succ n ih =>
    intro it s
    simp only [genLoop]
    cases hE : C.evaluate_prompt s.prompt with
    | error e => (try dsimp only); (try simp); all_goals omega
    | ok ev =>
      dsimp only
      by_cases h₁ : mS ≤ ev.score
      · simp only [if_pos h₁]; (try dsimp only); (try simp); all_goals omega
      · simp only [if_neg h₁]
        by_cases h₂ : mI ≤ it + 1
        · simp only [if_pos h₂]; (try dsimp only); (try simp); all_goals omega
        · simp only [if_neg h₂]
          cases hR : C.refine_prompt s.prompt ev req with
          | error e => (try dsimp only); (try simp); all_goals omega
          | ok p₁ =>
            (try dsimp only)
            refine le_trans (ih (it + 1) _) ?_
            (try dsimp only); (try simp); all_goals omega

/-- Each loop pass appends one iteration record, so the loop adds at most
`remaining` records. -/
theorem genLoop_results_le (C : Collaborators) (mS mI : Nat) (req : String) :
    ∀ (rem it : Nat) (s : LoopState),
      ((genLoop C mS mI req rem it s).1).results.length ≤
        s.results.length + rem := by
  intro rem
  induction rem with
  | zero => intro it s; simp [genLoop]
  | succ n ih =>
    intro it s
    simp only [genLoop]
    cases hE : C.evaluate_prompt s.prompt with
    | error e => (try dsimp only); (try simp); all_goals omega
    | ok ev =>
      dsimp only
      by_cases h₁ : mS ≤ ev.score
      · simp only [if_pos h₁]; (try dsimp only); (try simp); all_goals omega
      · simp only [if_neg h₁]
        by_cases h₂ : mI ≤ it + 1
        · simp only [if_pos h₂]; (try dsimp only); (try simp); all_goals omega
        · simp only [if_neg h₂]
          cases hR : C.refine_prompt s.prompt ev req with
          | error e => (try dsimp only); (try simp); all_goals omega
          | ok p₁ =>
            (try dsimp only)
            refine le_trans (ih (it + 1) _) ?_
            (try dsimp only); (try simp); all_goals omega

/-- The iteration-record list only ever grows. -/
theorem genLoop_results_mono (C : Collaborators) (mS mI : Nat) (req : String) :
    ∀ (rem it : Nat) (s : LoopState),
      s.results.length ≤ ((genLoop C mS mI req rem it s).1).results.length := by
  intro rem
  induction rem with
  | zero => intro it s; simp [genLoop]
  | succ n ih =>
    intro it s
    simp only [genLoop]
    cases hE : C.evaluate_prompt s.prompt with
    | error e => (try dsimp only); (try simp); all_goals omega
    | ok ev =>
      dsimp only
      by_cases h₁ : mS ≤ ev.score
      · simp only [if_pos h₁]; (try dsimp only); (try simp); all_goals omega
      · simp only [if_neg h₁]
        by_cases h₂ : mI ≤ it + 1
        · simp only [if_pos h₂]; (try dsimp only); (try simp); all_goals omega
        · simp only [if_neg h₂]
          cases hR : C.refine_prompt s.prompt ev req with
          | error e => (try dsimp only); (try simp); all_goals omega
          | ok p₁ =>
            (try dsimp only)
            refine le_trans ?_ (ih (it + 1) _)
            (try dsimp only); (try simp); all_goals omega

/-- If the loop has budget left and no collaborator raised, it appends at
least one iteration record. -/
theorem genLoop_results_one (C : Collaborators) (mS mI : Nat)
    (req : String) (n it : Nat) (s : LoopState)
    (h : (genLoop C mS mI req (n + 1) it s).2 = none) :
    s.results.length + 1 ≤
      ((genLoop C mS mI req (n + 1) it s).1).results.length := by
  simp only [genLoop] at h ⊢
  cases hE : C.evaluate_prompt s.prompt with
  | error e => (try rw [hE] at h); simp at h
  | ok ev =>
    (try rw [hE] at h)
    (try dsimp only at h ⊢)
    by_cases h₁ : mS ≤ ev.score
    · simp only [if_pos h₁]; simp
    · simp only [if_neg h₁] at h ⊢
      by_cases h₂ : mI ≤ it + 1
      · simp only [if_pos h₂]; simp
      · simp only [if_neg h₂] at h ⊢
        cases hR : C.refine_prompt s.prompt ev req with
        | error e => (try rw [hR] at h); simp at h
        | ok p₁ =>
          (try rw [hR] at h)
          (try rw [hR])
          dsimp only
          refine le_trans ?_ (genLoop_results_mono C mS mI req n (it + 1) _)
          simp

/-- All iteration indices in a record list are the (1-based) positions. -/
def idxOk (l : List Iteration) : Prop :=
  ∀ (j : Nat) (h : j < l.length), (l.get ⟨j, h⟩).iteration = j + 1

/-- Appending a record carrying index `length + 1` preserves `idxOk`. -/
theorem idxOk_append (l : List Iteration) (x : Iteration)
    (hl : idxOk l) (hx : x.iteration = l.length + 1) : idxOk (l ++ [x]) := by
  intro j h
  rcases Nat.lt_or_ge j l.length with hj | hj
  · have hj₀ := hl j hj
    simp only [List.get_eq_getElem] at hj₀ ⊢
    rw [List.getElem_append_left hj]
    exact hj₀
  · have hj₁ : j = l.length := by
      have : j < l.length + 1 := by simpa using h
      omega
    subst hj₁
    simpa [List.get_eq_getElem] using hx

/-- The loop preserves `idxOk` provided the iteration counter equals the
number of records accumulated so far (true at entry: 0 records, counter
0). -/
theorem genLoop_idx (C : Collaborators) (mS mI : Nat) (req : String) :
    ∀ (rem it : Nat) (s : LoopState),
      s.results.length = it → idxOk s.results →
      idxOk ((genLoop C mS mI req rem it s).1).results := by
  intro rem
  induction rem with
  | zero => intro it s _ hidx; simpa [genLoop] using hidx
  | succ n ih =>
    intro it s hlen hidx
    simp only [genLoop]
    cases hE : C.evaluate_prompt s.prompt with
    | error e => exact hidx
    | ok ev =>
      dsimp only
      have hx : (Iteration.mk (it + 1) s.prompt ev.score ev).iteration =
          s.results.length + 1 := by simp [hlen]
      have happ := idxOk_append s.results _ hidx hx
      by_cases h₁ : mS ≤ ev.score
      · simp only [if_pos h₁]; exact happ
      · simp only [if_neg h₁]
        by_cases h₂ : mI ≤ it + 1
        · simp only [if_pos h₂]; exact happ
        · simp only [if_neg h₂]
          cases hR : C.refine_prompt s.prompt ev req with
          | error e => exact happ
          | ok p₁ => exact ih (it + 1) _ (by simp [hlen]) happ

/-- The loop-local `score` always holds the score of the last appended
iteration record (Python binds `score` and appends the record carrying it
in the same pass). -/
theorem genLoop_lastScore (C : Collaborators) (mS mI : Nat) (req : String) :
    ∀ (rem it : Nat) (s : LoopState),
      s.lastScore = s.results.getLast?.map Iteration.score →
      ((genLoop C mS mI req rem it s).1).lastScore =
        ((genLoop C mS mI req rem it s).1).results.getLast?.map
          Iteration.score := by
  intro rem
  induction rem with
  | zero => intro it s h; simpa [genLoop] using h
  | succ n ih =>
    intro it s h
    simp only [genLoop]
    cases hE : C.evaluate_prompt s.prompt with
    | error e => exact h
    | ok ev =>
      dsimp only
      by_cases h₁ : mS ≤ ev.score
      · simp only [if_pos h₁]; simp
      · simp only [if_neg h₁]
        by_cases h₂ : mI ≤ it + 1
        · simp only [if_pos h₂]; simp
        · simp only [if_neg h₂]
          cases hR : C.refine_prompt s.prompt ev req with
          | error e => simp
          | ok p₁ => exact ih (it + 1) _ (by simp)

/-- Provenance of a loop failure: the propagated exception is exactly the
error of an evaluator call or of a refine call — the loop adds no handler
and no retry. -/
theorem genLoop_err_src (C : Collaborators) (mS mI : Nat) (req : String) :
    ∀ (rem it : Nat) (s : LoopState) (e : String),
      (genLoop C mS mI req rem it s).2 = some e →
      (∃ p, C.evaluate_prompt p = .error e) ∨
        (∃ p ev, C.refine_prompt p ev req = .error e) := by
  intro rem
  induction rem with
  | zero => intro it s e h; simp [genLoop] at h
  | succ n ih =>
    intro it s e h
    simp only [genLoop] at h
    cases hE : C.evaluate_prompt s.prompt with
    | error e₁ =>
      (try rw [hE] at h)
      (try dsimp only at h)
      obtain rfl : e₁ = e := by simpa using h
      exact Or.inl ⟨s.prompt, hE⟩
    | ok ev =>
      (try rw [hE] at h)
      (try dsimp only at h)
      by_cases h₁ : mS ≤ ev.score
      · rw [if_pos h₁] at h; simp at h
      · rw [if_neg h₁] at h
        by_cases h₂ : mI ≤ it + 1
        · rw [if_pos h₂] at h; simp at h
        · rw [if_neg h₂] at h
          cases hR : C.refine_prompt s.prompt ev req with
          | error e₁ =>
            (try rw [hR] at h)
            (try dsimp only at h)
            obtain rfl : e₁ = e := by simpa using h
            exact Or.inr ⟨s.prompt, ev, hR⟩
          | ok p₁ =>
            (try rw [hR] at h)
            exact ih (it + 1) _ e h

/-!  ### Structure of `generate_prompt`  -/

/-- On a run-cache miss (`redis.get` returns nil), `generate_prompt` is
the full run, with the miss counted. -/
theorem generate_prompt_miss (C : Collaborators) (mS cfgN : Nat)
    (req : String) (mi : Option Nat) (tid : String)
    (cache : CacheManager RunResult)
    (hmiss : assocFind (cache.mkKey (prompt_gen_key req)) cache.store =
      none) :
    generate_prompt C mS cfgN req mi tid cache =
      runFromScratch C mS (effectiveMaxIter mi cfgN) req tid
        { cache with stats :=
            { cache.stats with misses := cache.stats.misses + 1 } } := by
  simp [generate_prompt, CacheManager.get, hmiss]

/-- On a run-cache hit holding well-formed bytes, `generate_prompt`
returns the cached Run result with zero collaborator invocations. -/
theorem generate_prompt_hit (C : Collaborators) (mS cfgN : Nat)
    (req : String) (mi : Option Nat) (tid : String)
    (cache : CacheManager RunResult) (entry : RedisEntry RunResult)
    (r : RunResult)
    (hhit : assocFind (cache.mkKey (prompt_gen_key req)) cache.store =
      some entry)
    (hgood : entry.bytes = .good r) :
    generate_prompt C mS cfgN req mi tid cache =
      { outcome := .ok r,
        cache := { cache with stats :=
          { cache.stats with hits := cache.stats.hits + 1 } },
        evalCalls := 0, genInitialCalls := 0, refineCalls := 0 } := by
  simp [generate_prompt, CacheManager.get, hhit, hgood,
    CacheManager.deserialize]

/-- Inversion of a successful full run: the initial generation succeeded,
the loop raised nothing, and the returned dict is built from the final
loop state. -/
theorem runFromScratch_ok (C : Collaborators) (mS mI : Nat)
    (req tid : String) (cache : CacheManager RunResult) (r : RunResult)
    (h : (runFromScratch C mS mI req tid cache).outcome = .ok r) :
    ∃ p₀, C.generate_initial_prompt req = .ok p₀ ∧
      (genLoop C mS mI req mI 0
        { prompt := p₀, lastScore := none, results := [],
          evalCalls := 0, refineCalls := 0 }).2 = none ∧
      (genLoop C mS mI req mI 0
        { prompt := p₀, lastScore := none, results := [],
          evalCalls := 0, refineCalls := 0 }).1.lastScore =
        some r.final_score ∧
      r.iterations =
        (genLoop C mS mI req mI 0
          { prompt := p₀, lastScore := none, results := [],
            evalCalls := 0, refineCalls := 0 }).1.results ∧
      r.final_prompt =
        (genLoop C mS mI req mI 0
          { prompt := p₀, lastScore := none, results := [],
            evalCalls := 0, refineCalls := 0 }).1.prompt ∧
      r.task_id = tid ∧ r.requirements = req := by
  unfold runFromScratch at h
  cases hG : C.generate_initial_prompt req with
  | error e => rw [hG] at h; simp at h
  | ok p₀ =>
    rw [hG] at h
    dsimp only at h
    refine ⟨p₀, rfl, ?_⟩
    cases h₂ : (genLoop C mS mI req mI 0
        { prompt := p₀, lastScore := none, results := [],
          evalCalls := 0, refineCalls := 0 }).2 with
    | some e => rw [h₂] at h; simp at h
    | none =>
      rw [h₂] at h
      dsimp only at h
      cases h₃ : (genLoop C mS mI req mI 0
          { prompt := p₀, lastScore := none, results := [],
            evalCalls := 0, refineCalls := 0 }).1.lastScore with
      | none => rw [h₃] at h; simp at h
      | some score =>
        rw [h₃] at h
        dsimp only at h
        obtain rfl : _ = r := by simpa using h
        exact ⟨rfl, by simp [h₃], rfl, rfl, rfl, rfl⟩

/-- The full run never performs more evaluations than the iteration
budget. -/
theorem runFromScratch_evalCalls_le (C : Collaborators) (mS mI : Nat)
    (req tid : String) (cache : CacheManager RunResult) :
    (runFromScratch C mS mI req tid cache).evalCalls ≤ mI := by
  unfold runFromScratch
  cases hG : C.generate_initial_prompt req with
  | error e => simp
  | ok p₀ =>
    have hc := genLoop_evalCalls_le C mS mI req mI 0
      { prompt := p₀, lastScore := none, results := [],
        evalCalls := 0, refineCalls := 0 }
    simp only [Nat.zero_add] at hc
    dsimp only
    cases h₂ : (genLoop C mS mI req mI 0
        { prompt := p₀, lastScore := none, results := [],
          evalCalls := 0, refineCalls := 0 }).2 with
    | some e => dsimp only; omega
    | none =>
      dsimp only
      cases h₃ : (genLoop C mS mI req mI 0
          { prompt := p₀, lastScore := none, results := [],
            evalCalls := 0, refineCalls := 0 }).1.lastScore with
      | none => dsimp only; omega
      | some score => dsimp only; omega

/-!  ### Claim theorems — orchestrator  -/

/-- C1: for every non-empty requirements string and configured
`max_iterations = N ≥ 1`, a `generate_prompt` call missing the run cache
performs at most `N` evaluations, and any returned result carries between
1 and `N` iteration records. -/
theorem run_termination_bound (C : Collaborators) (minScore cfgN N : Nat)
    (req tid : String) (cache : CacheManager RunResult)
    (hreq : req ≠ "") (hN : 1 ≤ N)
    (hmiss : assocFind (cache.mkKey (prompt_gen_key req)) cache.store =
      none) :
    (generate_prompt C minScore cfgN req (some N) tid cache).evalCalls ≤ N ∧
      ∀ r, (generate_prompt C minScore cfgN req (some N) tid cache).outcome
          = .ok r →
        1 ≤ r.iterations.length ∧ r.iterations.length ≤ N := by
  have hN0 : N ≠ 0 := by omega
  have hmx : effectiveMaxIter (some N) cfgN = N := by
    simp [effectiveMaxIter, hN0]
  rw [generate_prompt_miss C minScore cfgN req (some N) tid cache hmiss, hmx]
  constructor
  · exact runFromScratch_evalCalls_le C minScore N req tid _
  · intro r hr
    obtain ⟨p₀, hG, h₂, h₃, hiters, hfp, htid, hreq₂⟩ :=
      runFromScratch_ok C minScore N req tid _ r hr
    have hle := genLoop_results_le C minScore N req N 0
      { prompt := p₀, lastScore := none, results := [],
        evalCalls := 0, refineCalls := 0 }
    simp only [Nat.zero_add] at hle
    obtain ⟨m, rfl⟩ : ∃ m, N = m + 1 := ⟨N - 1, by omega⟩
    have hone := genLoop_results_one C minScore (m + 1) req m 0
      { prompt := p₀, lastScore := none, results := [],
        evalCalls := 0, refineCalls := 0 } h₂
    simp only [Nat.zero_add] at hle hone
    constructor
    · rw [hiters]
      calc 1 ≤ 0 + 1 := by omega
        _ ≤ _ := by simpa using hone
    · rw [hiters]; simpa using hle

/-!  ### Concrete fixtures for the witnesses  -/

/-- Collaborators whose evaluator always scores 100 — the loop always
exhausts its budget. -/
def lowCollab : Collaborators where
  generate_initial_prompt := fun req => .ok ("draft:" ++ req)
  evaluate_prompt := fun _ => .ok { score := 100, feedback := "fb" }
  refine_prompt := fun p _ _ => .ok (p ++ "+")

/-- Collaborators whose evaluator always scores 900 — the loop stops after
the first evaluation at the default threshold 800. -/
def highCollab : Collaborators where
  generate_initial_prompt := fun req => .ok ("draft:" ++ req)
  evaluate_prompt := fun _ => .ok { score := 900, feedback := "fb" }
  refine_prompt := fun p _ _ => .ok (p ++ "+")

/-- A fresh run-level cache. -/
def emptyRunCache : CacheManager RunResult :=
  { ns := "agi_prompt:", store := [], stats := ⟨0, 0, 0, 0, 0⟩ }

/-- Witness for C1 at `N = 2` with the always-low evaluator. -/
theorem run_termination_bound_witness :
    (generate_prompt lowCollab 800 5 "r" (some 2) "t"
      emptyRunCache).evalCalls ≤ 2 ∧
      ∀ r, (generate_prompt lowCollab 800 5 "r" (some 2) "t"
          emptyRunCache).outcome = .ok r →
        1 ≤ r.iterations.length ∧ r.iterations.length ≤ 2 :=
  run_termination_bound lowCollab 800 5 2 "r" "t" emptyRunCache
    (by decide) (by decide) rfl

/-- C2: the success check runs before the budget check, so when the very
first evaluation already meets `min_acceptable_score`, the run returns
with exactly the one iteration record — whatever the remaining budget —
and the refine operation is never invoked. -/
theorem run_early_stop (C : Collaborators) (minScore cfgN : Nat)
    (mi : Option Nat) (req tid : String) (cache : CacheManager RunResult)
    (p₀ : String) (ev : Evaluation)
    (hmiss : assocFind (cache.mkKey (prompt_gen_key req)) cache.store =
      none)
    (hN : 1 ≤ effectiveMaxIter mi cfgN)
    (hG : C.generate_initial_prompt req = .ok p₀)
    (hE : C.evaluate_prompt p₀ = .ok ev)
    (hscore : minScore ≤ ev.score) :
    (generate_prompt C minScore cfgN req mi tid cache).outcome =
      .ok { task_id := tid, final_prompt := p₀, final_score := ev.score,
            iterations := [{ iteration := 1, prompt := p₀,
                             score := ev.score, feedback := ev }],
            requirements := req } ∧
    (generate_prompt C minScore cfgN req mi tid cache).evalCalls = 1 ∧
    (generate_prompt C minScore cfgN req mi tid cache).refineCalls = 0 := by
  rw [generate_prompt_miss C minScore cfgN req mi tid cache hmiss]
  obtain ⟨m, hm⟩ : ∃ m, effectiveMaxIter mi cfgN = m + 1 :=
    ⟨effectiveMaxIter mi cfgN - 1, by omega⟩
  rw [hm]
  have hloop : genLoop C minScore (m + 1) req (m + 1) 0
      { prompt := p₀, lastScore := none, results := [],
        evalCalls := 0, refineCalls := 0 } =
      ({ prompt := p₀, lastScore := some ev.score,
         results := [{ iteration := 1, prompt := p₀, score := ev.score,
                       feedback := ev }],
         evalCalls := 1, refineCalls := 0 }, none) := by
    simp [genLoop, hE, hscore]
  unfold runFromScratch
  rw [hG]
  dsimp only
  rw [hloop]
  exact ⟨rfl, rfl, rfl⟩

/-- Witness for C2: a first-call score of 900 against threshold 800 ends
the run after one iteration even with a budget of 3. -/
theorem run_early_stop_witness :
    (generate_prompt highCollab 800 5 "r" (some 3) "t"
        emptyRunCache).outcome =
      .ok { task_id := "t", final_prompt := "draft:r", final_score := 900,
            iterations := [{ iteration := 1, prompt := "draft:r",
                             score := 900,
                             feedback := { score := 900,
                                           feedback := "fb" } }],
            requirements := "r" } ∧
    (generate_prompt highCollab 800 5 "r" (some 3) "t"
      emptyRunCache).evalCalls = 1 ∧
    (generate_prompt highCollab 800 5 "r" (some 3) "t"
      emptyRunCache).refineCalls = 0 :=
  run_early_stop highCollab 800 5 (some 3) "r" "t" emptyRunCache
    "draft:r" { score := 900, feedback := "fb" } rfl (by decide) rfl rfl
    (by decide)

/-- C3: a completed (non-cache-hit) run returns a non-empty iteration
sequence whose last record's score is `final_score`, with the k-th record
(0-based `j`) carrying index `j + 1`. -/
theorem run_final_score_last (C : Collaborators) (minScore cfgN : Nat)
    (mi : Option Nat) (req tid : String) (cache : CacheManager RunResult)
    (r : RunResult)
    (hmiss : assocFind (cache.mkKey (prompt_gen_key req)) cache.store =
      none)
    (hr : (generate_prompt C minScore cfgN req mi tid cache).outcome =
      .ok r) :
    r.iterations ≠ [] ∧
    r.iterations.getLast?.map Iteration.score = some r.final_score ∧
    ∀ (j : Nat) (h : j < r.iterations.length),
      (r.iterations.get ⟨j, h⟩).iteration = j + 1 := by
  rw [generate_prompt_miss C minScore cfgN req mi tid cache hmiss] at hr
  obtain ⟨p₀, hG, h₂, h₃, hiters, hfp, htid, hreq₂⟩ :=
    runFromScratch_ok C minScore (effectiveMaxIter mi cfgN) req tid _ r hr
  have hlast := genLoop_lastScore C minScore (effectiveMaxIter mi cfgN) req
    (effectiveMaxIter mi cfgN) 0
    { prompt := p₀, lastScore := none, results := [],
      evalCalls := 0, refineCalls := 0 } (by simp)
  rw [h₃] at hlast
  have hidx := genLoop_idx C minScore (effectiveMaxIter mi cfgN) req
    (effectiveMaxIter mi cfgN) 0
    { prompt := p₀, lastScore := none, results := [],
      evalCalls := 0, refineCalls := 0 } (by simp)
    (by intro j h; simp at h)
  refine ⟨?_, ?_, ?_⟩
  · intro hnil
    rw [hiters] at hnil
    rw [hnil] at hlast
    simp at hlast
  · rw [hiters]
    exact hlast.symm
  · intro j h
    have h₄ : j < ((genLoop C minScore (effectiveMaxIter mi cfgN) req
        (effectiveMaxIter mi cfgN) 0
        { prompt := p₀, lastScore := none, results := [],
          evalCalls := 0, refineCalls := 0 }).1.results).length := by
      rw [← hiters]; exact h
    rw [List.get_of_eq hiters ⟨j, h⟩]
    exact hidx j h₄

/-- The Run result of a two-iteration budget-exhausted run of
`lowCollab` (used by the C3 witness). -/
def lowRunExpected : RunResult :=
  { task_id := "t", final_prompt := "draft:r+", final_score := 100,
    iterations :=
      [{ iteration := 1, prompt := "draft:r", score := 100,
         feedback := { score := 100, feedback := "fb" } },
       { iteration := 2, prompt := "draft:r+", score := 100,
         feedback := { score := 100, feedback := "fb" } }],
    requirements := "r" }

/-- Witness for C3 on a budget-exhausted two-iteration run. -/
theorem run_final_score_last_witness :
    lowRunExpected.iterations ≠ [] ∧
    lowRunExpected.iterations.getLast?.map Iteration.score =
      some lowRunExpected.final_score ∧
    ∀ (j : Nat) (h : j < lowRunExpected.iterations.length),
      (lowRunExpected.iterations.get ⟨j, h⟩).iteration = j + 1 :=
  run_final_score_last lowCollab 800 5 (some 2) "r" "t" emptyRunCache
    lowRunExpected rfl rfl

/-- Lookup immediately after an overwrite finds the new binding. -/
theorem assocFind_insert_self {α : Type} (k : String) (v : α)
    (l : List (String × α)) :
    assocFind k (assocInsert k v l) = some v := by
  simp [assocFind, assocInsert]

/-- On a successful full run, the cache afterwards is exactly the input
cache with the final result written under the requirements-derived key
with TTL 86400. -/
theorem runFromScratch_ok_cache (C : Collaborators) (mS mI : Nat)
    (req tid : String) (cache : CacheManager RunResult) (r : RunResult)
    (h : (runFromScratch C mS mI req tid cache).outcome = .ok r) :
    (runFromScratch C mS mI req tid cache).cache =
      (cache.set (prompt_gen_key req) r (some 86400)).2 := by
  unfold runFromScratch at h ⊢
  cases hG : C.generate_initial_prompt req with
  | error e => (try rw [hG] at h); simp at h
  | ok p₀ =>
    (try rw [hG] at h)
    (try rw [hG])
    (try dsimp only at h ⊢)
    cases h₂ : (genLoop C mS mI req mI 0
        { prompt := p₀, lastScore := none, results := [],
          evalCalls := 0, refineCalls := 0 }).2 with
    | some e => (try rw [h₂] at h); simp at h
    | none =>
      (try rw [h₂] at h)
      (try rw [h₂])
      (try dsimp only at h ⊢)
      cases h₃ : (genLoop C mS mI req mI 0
          { prompt := p₀, lastScore := none, results := [],
            evalCalls := 0, refineCalls := 0 }).1.lastScore with
      | none => (try rw [h₃] at h); simp at h
      | some score =>
        (try rw [h₃] at h)
        (try rw [h₃])
        (try dsimp only at h ⊢)
        obtain rfl : _ = r := by simpa using h
        rfl

/-- After a successful cache-missing run the run cache holds the returned
result, with well-formed bytes and the 24-hour TTL, under the unchanged
namespace. -/
theorem generate_prompt_cache_after_ok (C : Collaborators)
    (minScore cfgN : Nat) (mi : Option Nat) (req tid : String)
    (cache : CacheManager RunResult) (r : RunResult)
    (hmiss : assocFind (cache.mkKey (prompt_gen_key req)) cache.store =
      none)
    (h : (generate_prompt C minScore cfgN req mi tid cache).outcome =
      .ok r) :
    (generate_prompt C minScore cfgN req mi tid cache).cache.ns =
      cache.ns ∧
    assocFind (cache.ns ++ prompt_gen_key req)
        (generate_prompt C minScore cfgN req mi tid cache).cache.store =
      some { bytes := .good r, ttl := some 86400 } := by
  rw [generate_prompt_miss C minScore cfgN req mi tid cache hmiss] at h ⊢
  rw [runFromScratch_ok_cache C minScore _ req tid _ r h]
  refine ⟨rfl, ?_⟩
  have h86 : ((86400 : Int) > 0) = True := by norm_num
  simp only [CacheManager.set, CacheManager.mkKey, h86, if_true]
  exact assocFind_insert_self _ _ _

/-- C4: starting from an empty run-level cache, a second `generate_prompt`
call with the same requirements returns the first call's result unchanged
from the cache and invokes neither the Generator nor the Evaluator. -/
theorem run_cache_idempotent (C : Collaborators) (minScore cfgN : Nat)
    (mi mi₂ : Option Nat) (req tid tid₂ : String) (r₁ : RunResult)
    (h₁ : (generate_prompt C minScore cfgN req mi tid
      emptyRunCache).outcome = .ok r₁) :
    (generate_prompt C minScore cfgN req mi₂ tid₂
        (generate_prompt C minScore cfgN req mi tid
          emptyRunCache).cache).outcome = .ok r₁ ∧
    (generate_prompt C minScore cfgN req mi₂ tid₂
      (generate_prompt C minScore cfgN req mi tid
        emptyRunCache).cache).evalCalls = 0 ∧
    (generate_prompt C minScore cfgN req mi₂ tid₂
      (generate_prompt C minScore cfgN req mi tid
        emptyRunCache).cache).genInitialCalls = 0 ∧
    (generate_prompt C minScore cfgN req mi₂ tid₂
      (generate_prompt C minScore cfgN req mi tid
        emptyRunCache).cache).refineCalls = 0 := by
  have hmiss : assocFind (emptyRunCache.mkKey (prompt_gen_key req))
      emptyRunCache.store = none := rfl
  obtain ⟨hns, hfind⟩ := generate_prompt_cache_after_ok C minScore cfgN mi
    req tid emptyRunCache r₁ hmiss h₁
  have hhit : assocFind
      (((generate_prompt C minScore cfgN req mi tid
        emptyRunCache).cache).mkKey (prompt_gen_key req))
      ((generate_prompt C minScore cfgN req mi tid
        emptyRunCache).cache).store =
      some { bytes := .good r₁, ttl := some 86400 } := by
    rw [CacheManager.mkKey, hns]
    exact hfind
  rw [generate_prompt_hit C minScore cfgN req mi₂ tid₂ _ _ r₁ hhit rfl]
  exact ⟨rfl, rfl, rfl, rfl⟩

/-- Witness for C4: the second call on the same requirements is a pure
cache hit returning the two-iteration result of the first. -/
theorem run_cache_idempotent_witness :
    (generate_prompt lowCollab 800 5 "r" (some 1) "t2"
        (generate_prompt lowCollab 800 5 "r" (some 2) "t"
          emptyRunCache).cache).outcome = .ok lowRunExpected ∧
    (generate_prompt lowCollab 800 5 "r" (some 1) "t2"
      (generate_prompt lowCollab 800 5 "r" (some 2) "t"
        emptyRunCache).cache).evalCalls = 0 ∧
    (generate_prompt lowCollab 800 5 "r" (some 1) "t2"
      (generate_prompt lowCollab 800 5 "r" (some 2) "t"
        emptyRunCache).cache).genInitialCalls = 0 ∧
    (generate_prompt lowCollab 800 5 "r" (some 1) "t2"
      (generate_prompt lowCollab 800 5 "r" (some 2) "t"
        emptyRunCache).cache).refineCalls = 0 :=
  run_cache_idempotent lowCollab 800 5 (some 2) (some 1) "r" "t" "t2"
    lowRunExpected rfl

/-- C5: a collaborator failure during a (cache-missing) run propagates
unchanged to the caller — the initial-generation error or the loop's
raised error is exactly the run's error, the loop's raised errors only
ever originate in an evaluator or refine call (no retry, no wrapping) —
and no Run result is written to the run-level cache on failure. -/
theorem run_failure_propagation (C : Collaborators) (minScore cfgN : Nat)
    (mi : Option Nat) (req tid : String) (cache : CacheManager RunResult)
    (hmiss : assocFind (cache.mkKey (prompt_gen_key req)) cache.store =
      none) :
    (∀ e, C.generate_initial_prompt req = .error e →
      (generate_prompt C minScore cfgN req mi tid cache).outcome =
        .error e ∧
      (generate_prompt C minScore cfgN req mi tid cache).cache.store =
        cache.store) ∧
    (∀ p₀ e, C.generate_initial_prompt req = .ok p₀ →
      (genLoop C minScore (effectiveMaxIter mi cfgN) req
        (effectiveMaxIter mi cfgN) 0
        { prompt := p₀, lastScore := none, results := [],
          evalCalls := 0, refineCalls := 0 }).2 = some e →
      (generate_prompt C minScore cfgN req mi tid cache).outcome =
        .error e ∧
      (generate_prompt C minScore cfgN req mi tid cache).cache.store =
        cache.store) ∧
    (∀ (rem it : Nat) (s : LoopState) (e : String),
      (genLoop C minScore (effectiveMaxIter mi cfgN) req rem it s).2 =
        some e →
      (∃ p, C.evaluate_prompt p = .error e) ∨
        (∃ p ev, C.refine_prompt p ev req = .error e)) := by
  rw [generate_prompt_miss C minScore cfgN req mi tid cache hmiss]
  refine ⟨?_, ?_, ?_⟩
  · intro e hG
    unfold runFromScratch
    rw [hG]
    exact ⟨rfl, rfl⟩
  · intro p₀ e hG h₂
    unfold runFromScratch
    rw [hG]
    dsimp only
    rw [h₂]
    exact ⟨rfl, rfl⟩
  · intro rem it s e h
    exact genLoop_err_src C minScore _ req rem it s e h

/-- Collaborators whose evaluator raises (used by the C5 witness). -/
def failEvalCollab : Collaborators where
  generate_initial_prompt := fun req => .ok ("draft:" ++ req)
  evaluate_prompt := fun _ => .error "eval-boom"
  refine_prompt := fun p _ _ => .ok p

/-- Witness for C5: an evaluator failure in the first pass surfaces
unchanged as the run's error and the run cache store stays empty. -/
theorem run_failure_propagation_witness :
    (generate_prompt failEvalCollab 800 5 "r" (some 2) "t"
      emptyRunCache).outcome = .error "eval-boom" ∧
    (generate_prompt failEvalCollab 800 5 "r" (some 2) "t"
      emptyRunCache).cache.store = emptyRunCache.store :=
  (run_failure_propagation failEvalCollab 800 5 (some 2) "r" "t"
    emptyRunCache rfl).2.1 "draft:r" "eval-boom" rfl rfl

/-!  ### Claim theorems — cache  -/

/-- C6: `get` on an absent key returns exactly the caller-supplied
default, increments `misses` by one and nothing else, and leaves the
store untouched (the operation is total: no exception reaches the
caller). -/
theorem cache_get_miss_default {β : Type} (cm : CacheManager β)
    (key : String) (default : Option β)
    (habs : assocFind (cm.mkKey key) cm.store = none) :
    (cm.get key default).1 = default ∧
    (cm.get key default).2.stats.misses = cm.stats.misses + 1 ∧
    (cm.get key default).2.stats.hits = cm.stats.hits ∧
    (cm.get key default).2.stats.sets = cm.stats.sets ∧
    (cm.get key default).2.stats.deletes = cm.stats.deletes ∧
    (cm.get key default).2.stats.errors = cm.stats.errors ∧
    (cm.get key default).2.store = cm.store := by
  simp [CacheManager.get, habs]

/-- A fresh string-valued cache for the cache-claim witnesses. -/
def emptyStrCache : CacheManager String :=
  { ns := "agi_prompt:", store := [], stats := ⟨0, 0, 0, 0, 0⟩ }

/-- Witness for C6 on an empty store. -/
theorem cache_get_miss_default_witness :
    (emptyStrCache.get "k" (some "d")).1 = some "d" ∧
    (emptyStrCache.get "k" (some "d")).2.stats.misses =
      emptyStrCache.stats.misses + 1 ∧
    (emptyStrCache.get "k" (some "d")).2.stats.hits =
      emptyStrCache.stats.hits ∧
    (emptyStrCache.get "k" (some "d")).2.stats.sets =
      emptyStrCache.stats.sets ∧
    (emptyStrCache.get "k" (some "d")).2.stats.deletes =
      emptyStrCache.stats.deletes ∧
    (emptyStrCache.get "k" (some "d")).2.stats.errors =
      emptyStrCache.stats.errors ∧
    (emptyStrCache.get "k" (some "d")).2.store = emptyStrCache.store :=
  cache_get_miss_default emptyStrCache "k" (some "d") rfl

/-- A cache holding malformed bytes under `"k"` (used for C7). -/
def corruptCache : CacheManager String :=
  { ns := "agi_prompt:",
    store := [("agi_prompt:k", { bytes := .corrupt, ttl := some 60 })],
    stats := ⟨0, 0, 0, 0, 0⟩ }

/-- C7 counterexample: on a key holding malformed bytes, `get` returns
Python `None` — not the caller-supplied default `"x"` — and increments
`hits`, leaving `errors` untouched, contrary to the claim. -/
theorem cache_get_corrupt_counterexample :
    (corruptCache.get "k" (some "x")).1 = none ∧
    (corruptCache.get "k" (some "x")).1 ≠ some "x" ∧
    (corruptCache.get "k" (some "x")).2.stats.errors =
      corruptCache.stats.errors ∧
    (corruptCache.get "k" (some "x")).2.stats.hits =
      corruptCache.stats.hits + 1 := by
  refine ⟨rfl, ?_, rfl, rfl⟩
  intro h
  simp [CacheManager.get, CacheManager.deserialize,
    show assocFind (corruptCache.mkKey "k") corruptCache.store =
      some { bytes := .corrupt, ttl := some 60 } from rfl] at h

/-- C7 amended: `get` on a key holding malformed stored bytes never
raises; it counts the access as a hit (not an error) and returns the
deserializer's fallback `None`, which coincides with the caller-supplied
default only when that default is itself `None`. -/
theorem cache_get_corrupt_returns_none {β : Type} (cm : CacheManager β)
    (key : String) (default : Option β) (entry : RedisEntry β)
    (hfind : assocFind (cm.mkKey key) cm.store = some entry)
    (hbad : entry.bytes = .corrupt) :
    (cm.get key default).1 = none ∧
    (cm.get key default).2.stats.hits = cm.stats.hits + 1 ∧
    (cm.get key default).2.stats.errors = cm.stats.errors ∧
    (cm.get key default).2.stats.misses = cm.stats.misses := by
  simp [CacheManager.get, hfind, hbad, CacheManager.deserialize]

/-- Witness for the amended C7 on the concrete corrupt entry. -/
theorem cache_get_corrupt_returns_none_witness :
    (corruptCache.get "k" (some "x")).1 = none ∧
    (corruptCache.get "k" (some "x")).2.stats.hits =
      corruptCache.stats.hits + 1 ∧
    (corruptCache.get "k" (some "x")).2.stats.errors =
      corruptCache.stats.errors ∧
    (corruptCache.get "k" (some "x")).2.stats.misses =
      corruptCache.stats.misses :=
  cache_get_corrupt_returns_none corruptCache "k" (some "x")
    { bytes := .corrupt, ttl := some 60 } rfl rfl

/-- A cache holding a well-formed entry with a TTL (used for C8). -/
def ttlStrCache : CacheManager String :=
  { ns := "agi_prompt:",
    store := [("agi_prompt:k", { bytes := .good "v", ttl := some 60 })],
    stats := ⟨0, 0, 0, 0, 0⟩ }

/-- C8 counterexample: a successful `get_ttl` invocation increments none
of the five counters — here it returns the TTL yet every counter stays at
zero. -/
theorem cache_get_ttl_no_counter_counterexample :
    (ttlStrCache.get_ttl "k").1 = some 60 ∧
    (ttlStrCache.get_ttl "k").2.stats = ttlStrCache.stats ∧
    ttlStrCache.stats.total = 0 :=
  ⟨rfl, rfl, rfl⟩

/-- C8 amended: `get`, `set` and `delete` increment exactly one counter on
every invocation; `get_ttl` and `exists` touch no counter on success; and
`clear` bumps `deletes` by the number of keys removed (possibly zero) and
nothing else. -/
theorem cache_counter_discipline {β : Type} (cm : CacheManager β) :
    (∀ (key : String) (default : Option β),
      ((cm.get key default).2).stats.total = cm.stats.total + 1) ∧
    (∀ (key : String) (v : β) (ttl : Option Int),
      ((cm.set key v ttl).2).stats.total = cm.stats.total + 1) ∧
    (∀ key : String,
      ((cm.delete key).2).stats.total = cm.stats.total + 1) ∧
    (∀ key : String, ((cm.get_ttl key).2).stats = cm.stats) ∧
    (∀ key : String, ((cm.existsKey key).2).stats = cm.stats) ∧
    (∀ pattern : String,
      ((cm.clear pattern).2).stats.deletes =
        cm.stats.deletes + (cm.clear pattern).1 ∧
      ((cm.clear pattern).2).stats.hits = cm.stats.hits ∧
      ((cm.clear pattern).2).stats.misses = cm.stats.misses ∧
      ((cm.clear pattern).2).stats.sets = cm.stats.sets ∧
      ((cm.clear pattern).2).stats.errors = cm.stats.errors) := by
  refine ⟨?_, ?_, ?_, fun _ => rfl, fun _ => rfl, ?_⟩
  · intro key default
    cases h : assocFind (cm.mkKey key) cm.store with
    | some e => simp [CacheManager.get, h, CacheStats.total]; omega
    | none => simp [CacheManager.get, h, CacheStats.total]; omega
  · intro key v ttl
    simp [CacheManager.set, CacheStats.total]
    omega
  · intro key
    simp [CacheManager.delete, CacheStats.total]
    omega
  · intro pattern
    unfold CacheManager.clear
    dsimp only
    split
    · exact ⟨by simp, rfl, rfl, rfl, rfl⟩
    · exact ⟨rfl, rfl, rfl, rfl, rfl⟩

/-- C10: `set` with an explicit non-positive TTL stores the value through
plain SET, i.e. with no expiry at all — the entry persists rather than
being rejected or expiring — and a subsequent `get_ttl` on that key
returns the absent signal (`None`) even though `exists` reports the key;
a missing key yields the very same `get_ttl` observable, so the interface
cannot tell the two apart. -/
theorem cache_set_nonpositive_ttl {β : Type} (cm : CacheManager β)
    (key : String) (v : β) (t : Int) (ht : t ≤ 0) :
    assocFind (((cm.set key v (some t)).2).mkKey key)
        ((cm.set key v (some t)).2).store =
      some { bytes := .good v, ttl := none } ∧
    (((cm.set key v (some t)).2).existsKey key).1 = true ∧
    (((cm.set key v (some t)).2).get_ttl key).1 = none ∧
    ∀ (k : String) (cm₂ : CacheManager β),
      assocFind (cm₂.mkKey k) cm₂.store = none →
      (cm₂.get_ttl k).1 = none := by
  have hnt : ¬ (t > 0) := by omega
  have hfind : assocFind (((cm.set key v (some t)).2).mkKey key)
      ((cm.set key v (some t)).2).store =
      some { bytes := .good v, ttl := none } := by
    simp only [CacheManager.set, hnt, if_false, CacheManager.mkKey]
    exact assocFind_insert_self _ _ _
  refine ⟨hfind, ?_, ?_, ?_⟩
  · simp [CacheManager.existsKey, hfind]
  · simp [CacheManager.get_ttl, CacheManager.redisTtl, hfind]
  · intro k cm₂ habs
    simp [CacheManager.get_ttl, CacheManager.redisTtl, habs]

/-- Witness for C10 with `ttl = 0` on a fresh cache. -/
theorem cache_set_nonpositive_ttl_witness :
    assocFind (((emptyStrCache.set "k" "v" (some 0)).2).mkKey "k")
        ((emptyStrCache.set "k" "v" (some 0)).2).store =
      some { bytes := .good "v", ttl := none } ∧
    (((emptyStrCache.set "k" "v" (some 0)).2).existsKey "k").1 = true ∧
    (((emptyStrCache.set "k" "v" (some 0)).2).get_ttl "k").1 = none ∧
    ∀ (k : String) (cm₂ : CacheManager String),
      assocFind (cm₂.mkKey k) cm₂.store = none →
      (cm₂.get_ttl k).1 = none :=
  cache_set_nonpositive_ttl emptyStrCache "k" "v" 0 (by decide)

/-!  ### Claim theorem — task manager  -/

/-- C9: `get_task_status` first consults the cache under
`"task:" + task_id` and returns a present (well-formed) snapshot as is;
on a miss it builds the response from the queue's result store and writes
it back under that key with a 300-second TTL if and only if the task is
ready (terminal), returning the freshly built record either way. -/
theorem task_status_cache_flow (cm : CacheManager TaskRecord)
    (backend : String → CeleryResult) (task_id : String) :
    (∀ (entry : RedisEntry TaskRecord) (r : TaskRecord),
      assocFind (cm.mkKey ("task:" ++ task_id)) cm.store = some entry →
      entry.bytes = .good r →
      TaskManager.get_task_status cm backend task_id =
        (r, { cm with stats :=
          { cm.stats with hits := cm.stats.hits + 1 } })) ∧
    (assocFind (cm.mkKey ("task:" ++ task_id)) cm.store = none →
      (TaskManager.get_task_status cm backend task_id).1.task_id =
        task_id ∧
      (TaskManager.get_task_status cm backend task_id).1.status =
        (backend task_id).state ∧
      (TaskManager.get_task_status cm backend task_id).1.ready =
        (backend task_id).ready ∧
      ((backend task_id).ready = true →
        (TaskManager.get_task_status cm backend task_id).2.store =
          assocInsert (cm.mkKey ("task:" ++ task_id))
            { bytes :=
                .good (TaskManager.get_task_status cm backend task_id).1,
              ttl := some 300 }
            cm.store) ∧
      ((backend task_id).ready = false →
        (TaskManager.get_task_status cm backend task_id).2.store =
          cm.store)) := by
  constructor
  · intro entry r hfind hgood
    simp [TaskManager.get_task_status, CacheManager.get, hfind, hgood,
      CacheManager.deserialize]
  · intro hmiss
    simp only [TaskManager.get_task_status, CacheManager.get, hmiss]
    (try dsimp only)
    by_cases hready : (backend task_id).ready
    · by_cases hs : (backend task_id).successful
      · simp [hready, hs, CacheManager.set, CacheManager.mkKey]
      · simp [hready, hs, CacheManager.set, CacheManager.mkKey]
    · simp [hready]

/-- A result store in which every task is ready and successful (used by
the C9 witness). -/
def readyBackend : String → CeleryResult := fun _ =>
  { state := "SUCCESS", ready := true, successful := true, failed := false,
    result := "done", traceback := "" }

/-- A fresh task-record cache for the C9 witness. -/
def emptyTaskCache : CacheManager TaskRecord :=
  { ns := "agi_prompt:", store := [], stats := ⟨0, 0, 0, 0, 0⟩ }

/-- Witness for C9: a miss on a ready task builds the record from the
result store and writes the 300-second snapshot. -/
theorem task_status_cache_flow_witness :
    (TaskManager.get_task_status emptyTaskCache readyBackend
      "id1").1.task_id = "id1" ∧
    (TaskManager.get_task_status emptyTaskCache readyBackend
      "id1").1.status = "SUCCESS" ∧
    (TaskManager.get_task_status emptyTaskCache readyBackend
      "id1").2.store =
      assocInsert (emptyTaskCache.mkKey ("task:" ++ "id1"))
        { bytes := .good (TaskManager.get_task_status emptyTaskCache
            readyBackend "id1").1,
          ttl := some 300 }
        emptyTaskCache.store := by
  obtain ⟨-, hmiss⟩ :=
    task_status_cache_flow emptyTaskCache readyBackend "id1"
  obtain ⟨h₁, h₂, -, h₄, -⟩ := hmiss rfl
  exact ⟨h₁, h₂, h₄ rfl⟩
